import Mathlib

/-!
Verification of core NFsim data-structure and scheduler properties against the
declarations and inline method bodies of `src/src/NFcore/NFcore.hh`.

Machine integers are modelled as `Int`/`Nat`, `double` propensities and times as
exact rationals `ℚ`, `std::set<int>` as `Finset Int` (an ordered set of ints:
`begin()` dereferences to the least element), pointers as optional values, and
the parallel arrays `Molecule **bond` / `int *indexOfBond` as one optional-pair
table.  Only the fields relevant to the verified properties are embedded; each
definition's doc comment names the source entity it embeds.
-/

namespace NFsim

/-! ## Molecule reaction-membership bookkeeping (NFcore.hh:974-1000, 1069, 1128)

The source stores, per molecule, `std::set<int>* rxnListMappingId2`: for every
reaction index the set of mapping-set identifiers by which the molecule
currently participates in that reaction.
-/

/-- The claim-relevant slice of class `Molecule` (NFcore.hh:910).
`rxnListMappingId2 : Nat → Finset Int` embeds the field
`std::set<int>* rxnListMappingId2` (NFcore.hh:1128): the array of per-reaction
mapping-id sets, indexed by reaction index. -/
structure Molecule where
  rxnListMappingId2 : Nat → Finset Int

/-- `Molecule::NOT_IN_RXN = -1` (NFcore.hh:1069). -/
def Molecule.NOT_IN_RXN : Int := -1

/-- `Molecule::getRxnListMappingId(rxnIndex)` (NFcore.hh:974-977):
`return (rxnListMappingId2[rxnIndex].size() > 0) ? *rxnListMappingId2[rxnIndex].begin() : -1;`
For a non-empty `std::set<int>`, `*begin()` is the least element. -/
def Molecule.getRxnListMappingId (m : Molecule) (rxnIndex : Nat) : Int :=
  if h : (m.rxnListMappingId2 rxnIndex).Nonempty then
    (m.rxnListMappingId2 rxnIndex).min' h
  else
    -1

/-- `Molecule::getRxnListMappingSet(rxnIndex)` (NFcore.hh:979-982). -/
def Molecule.getRxnListMappingSet (m : Molecule) (rxnIndex : Nat) : Finset Int :=
  m.rxnListMappingId2 rxnIndex

/-- `Molecule::setRxnListMappingId(rxnIndex, rxnListMappingId)` (NFcore.hh:984-994):
if the id is `-1` the set at `rxnIndex` is cleared and `true` returned; otherwise
the id is inserted via `std::set::insert` and `it.second` is returned, which is
`true` exactly when the element was newly inserted. -/
def Molecule.setRxnListMappingId (m : Molecule) (rxnIndex : Nat) (id : Int) :
    Molecule × Bool :=
  if id = -1 then
    (⟨Function.update m.rxnListMappingId2 rxnIndex ∅⟩, true)
  else
    (⟨Function.update m.rxnListMappingId2 rxnIndex
        (insert id (m.rxnListMappingId2 rxnIndex))⟩,
     if id ∈ m.rxnListMappingId2 rxnIndex then false else true)

/-- `Molecule::deleteRxnListMappingId(rxnIndex, rxnListMappingId)` (NFcore.hh:998-1000):
`rxnListMappingId2[rxnIndex].erase(rxnListMappingId);` -/
def Molecule.deleteRxnListMappingId (m : Molecule) (rxnIndex : Nat) (id : Int) :
    Molecule :=
  ⟨Function.update m.rxnListMappingId2 rxnIndex
      ((m.rxnListMappingId2 rxnIndex).erase id)⟩

/-- A molecule whose per-reaction mapping-id sets are all empty (the state of a
freshly constructed molecule). -/
def molEmpty : Molecule := ⟨fun _ => (∅ : Finset Int)⟩

/-- A concrete molecule participating in reaction 0 through mapping ids 2 and 5. -/
def molTwoFive : Molecule :=
  ⟨fun i => if i = 0 then ({2, 5} : Finset Int) else ∅⟩

/-- The mutators of the `rxnListMappingId2` interface never put `-1` into a
mapping-id set: `setRxnListMappingId` clears on `-1` and only inserts ids `≠ -1`,
and `deleteRxnListMappingId` only erases.  So `-1 ∉ rxnListMappingId2[q]` is an
invariant of every molecule built through the class interface. -/
lemma neg_one_not_mem_rxnList_preserved (m : Molecule) (r q : Nat) (id : Int)
    (h : (-1 : Int) ∉ m.rxnListMappingId2 q) :
    (-1 : Int) ∉ (m.setRxnListMappingId r id).1.rxnListMappingId2 q ∧
    (-1 : Int) ∉ (m.deleteRxnListMappingId r id).rxnListMappingId2 q := by
  constructor
  · unfold Molecule.setRxnListMappingId
    by_cases hid : id = -1
    · simp only [hid, if_pos rfl]
      by_cases hq : q = r
      · subst hq; simp [Function.update]
      · simpa [Function.update, hq] using h
    · simp only [if_neg hid]
      by_cases hq : q = r
      · subst hq
        simp only [Function.update_same]
        intro hmem
        rcases Finset.mem_insert.mp hmem with h1 | h1
        · exact hid h1.symm
        · exact h h1
      · simpa [Function.update, hq] using h
  · unfold Molecule.deleteRxnListMappingId
    by_cases hq : q = r
    · subst hq
      simp only [Function.update_same]
      intro hmem
      exact h (Finset.mem_of_mem_erase hmem)
    · simpa [Function.update, hq] using h

/-- Claim C6: for every molecule and rule index, participation in the rule is a
set of mapping-set identifiers: `setRxnListMappingId(r, id)` with `id ≥ 0`
inserts `id` and returns `true` iff `id` was not already present (a duplicate
insertion leaves the set unchanged and returns `false`), and `id = -1` empties
the set and returns `true`. -/
theorem setRxnListMappingId_spec (m : Molecule) (r : Nat) (id : Int) :
    (0 ≤ id →
      ((m.setRxnListMappingId r id).2 = true ↔ id ∉ m.rxnListMappingId2 r) ∧
      (m.setRxnListMappingId r id).1.rxnListMappingId2 r
        = insert id (m.rxnListMappingId2 r) ∧
      (id ∈ m.rxnListMappingId2 r →
        (m.setRxnListMappingId r id).1.rxnListMappingId2 r
          = m.rxnListMappingId2 r)) ∧
    (id = -1 →
      (m.setRxnListMappingId r id).1.rxnListMappingId2 r = ∅ ∧
      (m.setRxnListMappingId r id).2 = true) := by
  constructor
  · intro hid
    have hne : id ≠ -1 := by intro hc; rw [hc] at hid; norm_num at hid
    unfold Molecule.setRxnListMappingId
    simp only [if_neg hne, Function.update_same]
    refine ⟨?_, trivial, ?_⟩
    · by_cases hmem : id ∈ m.rxnListMappingId2 r
      · simp [hmem]
      · simp [hmem]
    · intro hmem
      exact Finset.insert_eq_self.mpr hmem
  · intro hid
    unfold Molecule.setRxnListMappingId
    simp [hid, Function.update_same]

/-- Witness for C6 at concrete inputs: inserting id 3 for reaction 0 into a
fresh molecule reports a new insertion and stores exactly the inserted id. -/
theorem setRxnListMappingId_spec_witness :
    ((molEmpty.setRxnListMappingId 0 3).2 = true ↔
      (3 : Int) ∉ molEmpty.rxnListMappingId2 0) ∧
    (molEmpty.setRxnListMappingId 0 3).1.rxnListMappingId2 0
      = insert 3 (molEmpty.rxnListMappingId2 0) ∧
    ((3 : Int) ∈ molEmpty.rxnListMappingId2 0 →
      (molEmpty.setRxnListMappingId 0 3).1.rxnListMappingId2 0
        = molEmpty.rxnListMappingId2 0) :=
  (setRxnListMappingId_spec molEmpty 0 3).1 (by norm_num)

/-- Claim C9: `getRxnListMappingId(r)` returns `NOT_IN_RXN` (`-1`) iff the
mapping-id set for rule `r` is empty, and otherwise returns the smallest
identifier in that set (the first element of the ordered `std::set<int>`).
The hypothesis `-1 ∉` the set holds for every molecule built through the class
interface (`neg_one_not_mem_rxnList_preserved`). -/
theorem getRxnListMappingId_spec (m : Molecule) (r : Nat)
    (h : (-1 : Int) ∉ m.rxnListMappingId2 r) :
    (m.getRxnListMappingId r = Molecule.NOT_IN_RXN ↔
      m.rxnListMappingId2 r = ∅) ∧
    ((m.rxnListMappingId2 r).Nonempty →
      m.getRxnListMappingId r ∈ m.rxnListMappingId2 r ∧
      ∀ x ∈ m.rxnListMappingId2 r, m.getRxnListMappingId r ≤ x) := by
  unfold Molecule.getRxnListMappingId Molecule.NOT_IN_RXN
  by_cases hne : (m.rxnListMappingId2 r).Nonempty
  · simp only [dif_pos hne]
    constructor
    · constructor
      · intro hmin
        exfalso
        have hmem := (m.rxnListMappingId2 r).min'_mem hne
        rw [hmin] at hmem
        exact h hmem
      · intro hempty
        rw [hempty] at hne
        exact absurd hne (by simp)
    · intro _
      exact ⟨(m.rxnListMappingId2 r).min'_mem hne,
             fun x hx => (m.rxnListMappingId2 r).min'_le x hx⟩
  · simp only [dif_neg hne]
    rw [Finset.not_nonempty_iff_eq_empty] at hne
    constructor
    · simp [hne]
    · intro hcon
      rw [hne] at hcon
      exact absurd hcon (by simp)

/-- Witness for C9 at a concrete input: for the molecule with mapping-id set
`{2, 5}` for reaction 0, the getter returns an element of the set that is a
lower bound of it (namely 2), and equals `-1` only if the set were empty. -/
theorem getRxnListMappingId_spec_witness :
    ((molTwoFive.getRxnListMappingId 0 = Molecule.NOT_IN_RXN ↔
       molTwoFive.rxnListMappingId2 0 = ∅) ∧
     ((molTwoFive.rxnListMappingId2 0).Nonempty →
       molTwoFive.getRxnListMappingId 0 ∈ molTwoFive.rxnListMappingId2 0 ∧
       ∀ x ∈ molTwoFive.rxnListMappingId2 0,
         molTwoFive.getRxnListMappingId 0 ≤ x)) :=
  getRxnListMappingId_spec molTwoFive 0 (by decide)

/-! ## ComplexList public iterator (NFcore.hh:141-185)

`resetComplexIter()` sets the internal iterator `complexIter_public` to
`allComplexes.begin()`; `nextComplex()` returns
`(complexIter_public < allComplexes.end() ? *complexIter_public++ : 0)`.
A vector iterator is embedded as an index into the vector; the null pointer
returned at the end is embedded as `none`.
-/

/-- The claim-relevant slice of class `Complex` (NFcore.hh:1380): its identifier
`ID_complex` (NFcore.hh:1437). -/
structure Complex where
  ID_complex : Nat
deriving DecidableEq

/-- The claim-relevant slice of class `ComplexList` (NFcore.hh:141):
`allComplexes` (NFcore.hh:176) is the vector of all complex pointers, and
`complexIter_public` (NFcore.hh:184) is the vector iterator backing the public
iteration interface, embedded as an index. -/
structure ComplexList where
  allComplexes : List Complex
  complexIter_public : Nat
deriving DecidableEq

/-- `ComplexList::resetComplexIter()` (NFcore.hh:169):
`complexIter_public = allComplexes.begin();` -/
def ComplexList.resetComplexIter (cl : ComplexList) : ComplexList :=
  { cl with complexIter_public := 0 }

/-- `ComplexList::nextComplex()` (NFcore.hh:172):
`return (complexIter_public < allComplexes.end() ? *complexIter_public++ : 0);`
Returns the pointed-to complex and post-increments the iterator while it is
strictly before `end()`; past the end it returns the null pointer (`none`) and
leaves the iterator unchanged. -/
def ComplexList.nextComplex (cl : ComplexList) : Option Complex × ComplexList :=
  if h : cl.complexIter_public < cl.allComplexes.length then
    (some (cl.allComplexes.get ⟨cl.complexIter_public, h⟩),
     { cl with complexIter_public := cl.complexIter_public + 1 })
  else
    (none, cl)

/-- Runs `nextComplex()` `n` times, collecting the returned pointers in order. -/
def ComplexList.runNext : ComplexList → Nat → List (Option Complex) × ComplexList
  | cl, 0 => ([], cl)
  | cl, n + 1 =>
    let p := cl.nextComplex
    let q := p.2.runNext n
    (p.1 :: q.1, q.2)

/-- Auxiliary: starting from iterator position `i` with `i + n ≤ length`, `n`
calls of `nextComplex` return the `n` stored complexes from position `i` on, in
storage order, and leave the iterator at `i + n`. -/
lemma runNext_in_range (l : List Complex) (n : Nat) :
    ∀ i, i + n ≤ l.length →
      (ComplexList.runNext ⟨l, i⟩ n).1 = ((l.drop i).take n).map some ∧
      (ComplexList.runNext ⟨l, i⟩ n).2 = ⟨l, i + n⟩ := by
  induction n with
  | zero =>
    intro i _
    simp [ComplexList.runNext]
  | succ n ih =>
    intro i hle
    have hi : i < l.length := by omega
    have hstep : (ComplexList.nextComplex ⟨l, i⟩)
        = (some (l.get ⟨i, hi⟩), ⟨l, i + 1⟩) := by
      simp [ComplexList.nextComplex, hi]
    have hrec := ih (i + 1) (by omega)
    have hdrop : l.drop i = l.get ⟨i, hi⟩ :: l.drop (i + 1) :=
      List.drop_eq_getElem_cons hi
    constructor
    · simp only [ComplexList.runNext, hstep]
      rw [hrec.1, hdrop, List.take_succ_cons, List.map_cons]
    · simp only [ComplexList.runNext, hstep]
      rw [hrec.2]
      have : i + 1 + n = i + (n + 1) := by omega
      rw [this]

/-- Auxiliary: once the iterator is at or past the end, every further
`nextComplex` call returns the null pointer and does not move the iterator. -/
lemma runNext_past_end (l : List Complex) (i : Nat) (hi : l.length ≤ i) :
    ∀ k, (ComplexList.runNext ⟨l, i⟩ k).1 = List.replicate k none ∧
         (ComplexList.runNext ⟨l, i⟩ k).2 = ⟨l, i⟩ := by
  have hstep : (ComplexList.nextComplex ⟨l, i⟩) = (none, ⟨l, i⟩) := by
    simp [ComplexList.nextComplex]
    omega
  intro k
  induction k with
  | zero => simp [ComplexList.runNext]
  | succ k ih =>
    simp only [ComplexList.runNext, hstep]
    rw [ih.1, ih.2]
    exact ⟨rfl, rfl⟩

/-- Claim C10: after `resetComplexIter()`, the sequence of `nextComplex()`
calls returns each stored complex pointer exactly once in storage order, and
once the end is reached every further call returns the null pointer and leaves
the iterator in place instead of reading past the container. -/
theorem nextComplex_iteration (cl : ComplexList) :
    ((cl.resetComplexIter.runNext cl.allComplexes.length).1
        = cl.allComplexes.map some) ∧
    (∀ k,
      ((cl.resetComplexIter.runNext cl.allComplexes.length).2.runNext k).1
        = List.replicate k none ∧
      ((cl.resetComplexIter.runNext cl.allComplexes.length).2.runNext k).2
        = (cl.resetComplexIter.runNext cl.allComplexes.length).2) := by
  have hmain := runNext_in_range cl.allComplexes cl.allComplexes.length 0
    (by omega)
  have hreset : cl.resetComplexIter = ⟨cl.allComplexes, 0⟩ := by
    cases cl; rfl
  constructor
  · rw [hreset, hmain.1]
    simp
  · intro k
    rw [hreset, hmain.2]
    have hpast := runNext_past_end cl.allComplexes
      (0 + cl.allComplexes.length) (by omega) k
    exact ⟨hpast.1, by rw [hpast.2]⟩

/-! ## Inline error-exit paths (NFcore.hh:325, 1224-1227)

Three error paths are defined inline in the header; each prints a diagnostic to
the console and calls `exit(1)`.  A value-or-exit computation is embedded as a
sum of a value and the process exit code; the console output is not modelled.
-/

/-- Result of a computation that either yields a value or terminates the
process with an exit code. -/
inductive ExitOrVal (α : Type) where
  | val : α → ExitOrVal α
  | exitWith : Nat → ExitOrVal α
deriving DecidableEq

/-- `System::getLocalFunction(funcName)` (NFcore.hh:325):
`cout << "getLocalFunction not yet implemented." << endl; exit(1);`
The function name argument (embedded as an id) is never inspected. -/
def System.getLocalFunction (funcName : Nat) : ExitOrVal Unit :=
  ExitOrVal.exitWith 1

/-- Base-class `ReactionClass::getDORreactantPosition()` (NFcore.hh:1224-1225),
reached when the reaction is not of DOR type: prints
"Trying to get DOR reactant Position from a reaction that is not of type DOR! /
this is an internal error, and so I will quit." and calls `exit(1)`
(the trailing `return -1` is unreachable). -/
def ReactionClass.getDORreactantPosition_nonDOR : ExitOrVal Int :=
  ExitOrVal.exitWith 1

/-- Base-class `ReactionClass::getDORreactantPosition2()` (NFcore.hh:1226-1227),
reached when the reaction is not of DOR2 type: prints the analogous
internal-error message and calls `exit(1)`. -/
def ReactionClass.getDORreactantPosition2_nonDOR2 : ExitOrVal Int :=
  ExitOrVal.exitWith 1

/-- Counterexample to C7 as stated: querying the DOR reactant position on a
non-DOR reaction is announced by the code itself as an internal error, yet it
terminates the process with exit code 1, not 2. -/
theorem getDORreactantPosition_exit_code_is_one :
    ReactionClass.getDORreactantPosition_nonDOR = ExitOrVal.exitWith 1 ∧
    ReactionClass.getDORreactantPosition_nonDOR ≠ ExitOrVal.exitWith 2 := by
  constructor
  · rfl
  · intro h
    exact absurd h (by decide)

/-- Claim C7 as amended: the error exits defined inline in the header all use
exit code 1 — the internal-error paths (the DOR reactant-position queries on a
reaction of the wrong type) exit 1 just like the model-validation path
(`getLocalFunction`), so exit codes are not disjoint by error kind. -/
theorem inline_error_exits_all_use_code_one :
    (∀ fName, System.getLocalFunction fName = ExitOrVal.exitWith 1) ∧
    ReactionClass.getDORreactantPosition_nonDOR = ExitOrVal.exitWith 1 ∧
    ReactionClass.getDORreactantPosition2_nonDOR2 = ExitOrVal.exitWith 1 :=
  ⟨fun _ => rfl, rfl, rfl⟩

/-! ## Process-wide static counters (NFcore.hh:419-422, 1068, 1099)

`System::NULL_EVENT_COUNTER` is declared `static int` (NFcore.hh:422) and
`Molecule::uniqueIdCount` is declared `static int` (NFcore.hh:1099) with the
static accessor `Molecule::getUniqueIdCount()` (NFcore.hh:1068).  A `static`
data member has a single instance per process, shared by every object of the
class; it is embedded as a separate process-level state record that System
instances read through, with the reading instance ignored — exactly the C++
semantics of accessing a static member through an instance.
-/

/-- The process-wide static data: the single `System::NULL_EVENT_COUNTER` and
the single `Molecule::uniqueIdCount` shared by the whole process. -/
structure ProcessStatics where
  NULL_EVENT_COUNTER : Int
  uniqueIdCount : Int
deriving DecidableEq

/-- A System instance.  The counters are deliberately not fields: being
`static`, they live once per process, not once per System. -/
structure SystemInst where
  sysId : Nat
deriving DecidableEq

/-- Reading `System::NULL_EVENT_COUNTER` through a System instance: static
member lookup ignores the instance and yields the process-wide value. -/
def SystemInst.readNullEventCounter (s : SystemInst) (g : ProcessStatics) :
    Int :=
  g.NULL_EVENT_COUNTER

/-- Reading `Molecule::getUniqueIdCount()` (NFcore.hh:1068) from the context of
a System instance: the static accessor returns the process-wide counter,
whatever System is simulating. -/
def SystemInst.readUniqueIdCount (s : SystemInst) (g : ProcessStatics) : Int :=
  g.uniqueIdCount

/-- Modelled from the spec: a null event counted while simulating System `s`
increments `NULL_EVENT_COUNTER` ("keeps track of null events", NFcore.hh:419-421;
the incrementing fire path is not in src/).  Because the counter is static, the
increment lands on the process-wide value. -/
def fireNullEvent (s : SystemInst) (g : ProcessStatics) : ProcessStatics :=
  { g with NULL_EVENT_COUNTER := g.NULL_EVENT_COUNTER + 1 }

/-- Modelled from the spec: creating a molecule while simulating System `s`
consumes the next unique id, incrementing `Molecule::uniqueIdCount`
("unique_id (monotone across simulation)"; the Molecule constructor is not in
src/).  Because the counter is static, the increment lands on the process-wide
value. -/
def createMolecule (s : SystemInst) (g : ProcessStatics) : ProcessStatics :=
  { g with uniqueIdCount := g.uniqueIdCount + 1 }

/-- Counterexample to C8 as stated: with two distinct System instances and both
counters initially 0, a null event counted in System 1 changes the
`NULL_EVENT_COUNTER` value System 2 observes, and a molecule created in
System 1 changes the `uniqueIdCount` value System 2 observes — the static
counters are shared, so the two simulations are not independent. -/
theorem static_counters_shared_counterexample :
    SystemInst.readNullEventCounter ⟨2⟩ (fireNullEvent ⟨1⟩ ⟨0, 0⟩)
      ≠ SystemInst.readNullEventCounter ⟨2⟩ ⟨0, 0⟩ ∧
    SystemInst.readUniqueIdCount ⟨2⟩ (createMolecule ⟨1⟩ ⟨0, 0⟩)
      ≠ SystemInst.readUniqueIdCount ⟨2⟩ ⟨0, 0⟩ := by
  constructor
  · intro h
    exact absurd h (by decide)
  · intro h
    exact absurd h (by decide)

/-- Claim C8 as amended: `NULL_EVENT_COUNTER` and `uniqueIdCount` are
process-wide `static` members, not System state: every System instance observes
the same counter values, and a null event counted in (or a molecule created by)
one System increments the value observed through every other System.  (The
spec's design note proposes moving them into the System orchestrator; it does
not describe the current code.) -/
theorem static_counters_process_wide (s1 s2 : SystemInst)
    (g : ProcessStatics) :
    (s1.readNullEventCounter g = s2.readNullEventCounter g) ∧
    (s1.readUniqueIdCount g = s2.readUniqueIdCount g) ∧
    (s2.readNullEventCounter (fireNullEvent s1 g)
      = s2.readNullEventCounter g + 1) ∧
    (s2.readUniqueIdCount (createMolecule s1 g)
      = s2.readUniqueIdCount g + 1) :=
  ⟨rfl, rfl, rfl, rfl⟩

/-! ## Total propensity maintenance (NFcore.hh:356, 559, 567-568)

`System` stores `double a_tot`, "the sum of all a's (propensities) of all
reactions" (NFcore.hh:559).  `update_A_tot(r, old_a, new_a)` (declared
NFcore.hh:356) and `recompute_A_tot()` (declared NFcore.hh:568) have no bodies
in src/; they are modelled from the spec.  Propensities are exact rationals.
The registered reactions are represented by the list of their current
propensities `a(r)`, indexed by reaction index.
-/

/-- Modelled from the spec: `System::recompute_A_tot()` (declaration only,
NFcore.hh:568; body missing from src/).  Spec (I5): "a_tot == sum_r r.a" —
the recomputation returns the sum over all registered reactions of the current
propensity. -/
def recompute_A_tot (props : List ℚ) : ℚ := props.sum

/-- Modelled from the spec: `System::update_A_tot(r, old_a, new_a)` (declaration
only, NFcore.hh:356; body missing from src/).  The incremental update replaces
reaction `r`'s contribution to the running total: the old propensity is
subtracted and the new one added. -/
def update_A_tot (a_tot old_a new_a : ℚ) : ℚ := a_tot - old_a + new_a

/-- Auxiliary: replacing the entry at index `r` of the propensity list changes
the sum by the difference of new and old entry. -/
lemma sum_set_propensities (props : List ℚ) :
    ∀ (r : Nat) (old_a new_a : ℚ), props.get? r = some old_a →
      (props.set r new_a).sum = props.sum - old_a + new_a := by
  induction props with
  | nil => intro r old_a new_a h; simp at h
  | cons p ps ih =>
    intro r old_a new_a h
    cases r with
    | zero =>
      simp only [List.get?] at h
      injection h with h
      subst h
      simp [List.sum_cons]
      ring
    | succ r =>
      simp only [List.get?] at h
      have := ih r old_a new_a h
      simp only [List.set, List.sum_cons, this]
      ring

/-- Claim C1: the incremental update `update_A_tot(r, old_a, new_a)` keeps
`a_tot` equal to the value `recompute_A_tot()` would return — if at an event
boundary `a_tot` equals the sum of all reactions' propensities and reaction `r`
changes its propensity from `old_a` to `new_a`, then the incrementally updated
total equals the recomputed sum over the updated reaction list, so the
invariant `a_tot = sum_r a(r)` holds at the next scheduler entry point. -/
theorem update_A_tot_preserves_sum (props : List ℚ) (r : Nat)
    (old_a new_a a_tot : ℚ)
    (hr : props.get? r = some old_a)
    (hsum : a_tot = recompute_A_tot props) :
    update_A_tot a_tot old_a new_a = recompute_A_tot (props.set r new_a) := by
  unfold update_A_tot recompute_A_tot
  rw [hsum, sum_set_propensities props r old_a new_a hr]
  unfold recompute_A_tot
  ring

/-- Witness for C1 at concrete inputs: two reactions with propensities 1/2 and
3 and running total 7/2; reaction 1 changes its propensity to 5 and the
incremental update yields the recomputed sum 11/2. -/
theorem update_A_tot_preserves_sum_witness :
    update_A_tot (7 / 2) 3 5
      = recompute_A_tot (([1 / 2, 3] : List ℚ).set 1 5) :=
  update_A_tot_preserves_sum [1 / 2, 3] 1 3 5 (7 / 2) (by rfl)
    (by norm_num [recompute_A_tot])

/-! ## Bond symmetry of the molecule graph (NFcore.hh:1010-1015, 1115-1116)

Each `Molecule` stores the parallel arrays `Molecule **bond` (NFcore.hh:1115)
and `int *indexOfBond` (NFcore.hh:1116): `bond[i]` is the partner molecule of
component `i` (or `NOBOND`) and `indexOfBond[i]` "gives the index of the
component that is bonded to this molecule".  The two parallel arrays across the
whole population are embedded as one table from (molecule id, component index)
to the optional pair (partner id, partner component index).  The static
mutators `Molecule::bind` (declared NFcore.hh:1010-1011) and
`Molecule::unbind` (declared NFcore.hh:1014-1015) have no bodies in src/; they
are modelled from the spec (§4.1: bind — "Post: symmetric edge set"; unbind —
"Post: edge removed; ... returns (partner_uid, partner_component)").
-/

/-- The bond half-edge table of the molecule instance graph:
`bond (m, i) = some (n, j)` means component `i` of molecule `m` is bonded to
component `j` of molecule `n`; `none` is an open site (`NOBOND`/`NOINDEX`). -/
structure MolGraph where
  bond : Nat × Nat → Option (Nat × Nat)

/-- Modelled from the spec: `Molecule::bind(m1, cIndex1, m2, cIndex2)`
(declaration only, NFcore.hh:1010; body missing from src/).  Establishes both
half-edges of the new bond: `m1`'s component `c1` points to `(m2, c2)` and
`m2`'s component `c2` points back to `(m1, c1)`. -/
def MolGraph.bind (g : MolGraph) (m1 c1 m2 c2 : Nat) : MolGraph :=
  ⟨Function.update (Function.update g.bond (m1, c1) (some (m2, c2)))
      (m2, c2) (some (m1, c1))⟩

/-- Modelled from the spec: `Molecule::unbind(m1, bSiteIndex)` (declaration
only, NFcore.hh:1014; body missing from src/).  Removes both half-edges of the
bond at component `c1` of `m1` and returns the partner (molecule, component)
for logging; on an open site nothing changes and nothing is returned. -/
def MolGraph.unbind (g : MolGraph) (m1 c1 : Nat) :
    MolGraph × Option (Nat × Nat) :=
  match g.bond (m1, c1) with
  | none => (g, none)
  | some (m2, c2) =>
    (⟨Function.update (Function.update g.bond (m1, c1) none) (m2, c2) none⟩,
     some (m2, c2))

/-- Spec invariant (I1): every bond is symmetric — if component `i` of `m`
points to component `j` of `n`, then component `j` of `n` points back to
component `i` of `m`. -/
def MolGraph.BondSymmetric (g : MolGraph) : Prop :=
  ∀ m i n j, g.bond (m, i) = some (n, j) → g.bond (n, j) = some (m, i)

/-- The molecule graph with no bonds. -/
def emptyMolGraph : MolGraph := ⟨fun _ => none⟩

/-- Auxiliary: the bond table produced by `bind`, written out. -/
lemma bind_bond_eq (g : MolGraph) (m1 c1 m2 c2 : Nat) :
    (g.bind m1 c1 m2 c2).bond
      = Function.update (Function.update g.bond (m1, c1) (some (m2, c2)))
          (m2, c2) (some (m1, c1)) := rfl

/-- Auxiliary: `unbind` on a bonded site, written out. -/
lemma unbind_eq_of_bond (g : MolGraph) (m1 c1 m2 c2 : Nat)
    (h : g.bond (m1, c1) = some (m2, c2)) :
    g.unbind m1 c1
      = (⟨Function.update (Function.update g.bond (m1, c1) none)
            (m2, c2) none⟩,
         some (m2, c2)) := by
  unfold MolGraph.unbind
  rw [h]

/-- Auxiliary: `unbind` on an open site changes nothing. -/
lemma unbind_eq_of_open (g : MolGraph) (m1 c1 : Nat)
    (h : g.bond (m1, c1) = none) :
    g.unbind m1 c1 = (g, none) := by
  unfold MolGraph.unbind
  rw [h]

/-- Auxiliary: `bind` establishes both half-edges of the new bond. -/
lemma bind_establishes_halfedges (g : MolGraph) (m1 c1 m2 c2 : Nat) :
    (g.bind m1 c1 m2 c2).bond (m1, c1) = some (m2, c2) ∧
    (g.bind m1 c1 m2 c2).bond (m2, c2) = some (m1, c1) := by
  rw [bind_bond_eq]
  constructor
  · rw [Function.update_apply]
    by_cases he : ((m1, c1) : Nat × Nat) = (m2, c2)
    · rw [if_pos he, he]
    · rw [if_neg he, Function.update_same]
  · rw [Function.update_same]

/-- Auxiliary: `bind` on two open sites preserves bond symmetry. -/
lemma bind_preserves_symmetry (g : MolGraph) (m1 c1 m2 c2 : Nat)
    (hsym : g.BondSymmetric)
    (h1 : g.bond (m1, c1) = none) (h2 : g.bond (m2, c2) = none) :
    (g.bind m1 c1 m2 c2).BondSymmetric := by
  intro m i n j h
  rw [bind_bond_eq, Function.update_apply, Function.update_apply] at h
  rw [bind_bond_eq, Function.update_apply, Function.update_apply]
  by_cases hA : ((m, i) : Nat × Nat) = (m2, c2)
  · rw [if_pos hA] at h
    have hnj : ((n, j) : Nat × Nat) = (m1, c1) := by
      injection h with h; exact h.symm
    by_cases hB : ((m1, c1) : Nat × Nat) = (m2, c2)
    · rw [if_pos (hnj.trans hB), hB, ← hA]
    · rw [if_neg (by rw [hnj]; exact hB), if_pos hnj, ← hA]
  · rw [if_neg hA] at h
    by_cases hC : ((m, i) : Nat × Nat) = (m1, c1)
    · rw [if_pos hC] at h
      have hnj : ((n, j) : Nat × Nat) = (m2, c2) := by
        injection h with h; exact h.symm
      rw [if_pos hnj, ← hC]
    · rw [if_neg hC] at h
      have hs := hsym m i n j h
      have hne1 : ((n, j) : Nat × Nat) ≠ (m1, c1) := by
        intro he; rw [he] at hs; rw [hs] at h1; exact Option.noConfusion h1
      have hne2 : ((n, j) : Nat × Nat) ≠ (m2, c2) := by
        intro he; rw [he] at hs; rw [hs] at h2; exact Option.noConfusion h2
      rw [if_neg hne2, if_neg hne1]
      exact hs

/-- Auxiliary: `unbind` preserves bond symmetry. -/
lemma unbind_preserves_symmetry (g : MolGraph) (m1 c1 : Nat)
    (hsym : g.BondSymmetric) :
    (g.unbind m1 c1).1.BondSymmetric := by
  cases hb : g.bond (m1, c1) with
  | none =>
    rw [unbind_eq_of_open g m1 c1 hb]
    exact hsym
  | some p =>
    obtain ⟨m2, c2⟩ := p
    rw [unbind_eq_of_bond g m1 c1 m2 c2 hb]
    intro m i n j h
    simp only at h ⊢
    rw [Function.update_apply, Function.update_apply] at h
    rw [Function.update_apply, Function.update_apply]
    by_cases hA : ((m, i) : Nat × Nat) = (m2, c2)
    · rw [if_pos hA] at h
      exact Option.noConfusion h
    · rw [if_neg hA] at h
      by_cases hC : ((m, i) : Nat × Nat) = (m1, c1)
      · rw [if_pos hC] at h
        exact Option.noConfusion h
      · rw [if_neg hC] at h
        have hs := hsym m i n j h
        have hsb := hsym m1 c1 m2 c2 hb
        have hne1 : ((n, j) : Nat × Nat) ≠ (m1, c1) := by
          intro he
          rw [he, hb] at hs
          injection hs with hs
          exact hA hs.symm
        have hne2 : ((n, j) : Nat × Nat) ≠ (m2, c2) := by
          intro he
          rw [he, hsb] at hs
          injection hs with hs
          exact hC hs.symm
        rw [if_neg hne2, if_neg hne1]
        exact hs

/-- Auxiliary: `unbind` removes both half-edges of the removed bond. -/
lemma unbind_removes_halfedges (g : MolGraph) (m1 c1 n j : Nat)
    (h : g.bond (m1, c1) = some (n, j)) :
    (g.unbind m1 c1).1.bond (m1, c1) = none ∧
    (g.unbind m1 c1).1.bond (n, j) = none := by
  rw [unbind_eq_of_bond g m1 c1 n j h]
  simp only
  constructor
  · rw [Function.update_apply]
    by_cases he : ((m1, c1) : Nat × Nat) = (n, j)
    · rw [if_pos he]
    · rw [if_neg he, Function.update_same]
  · rw [Function.update_same]

/-- Claim C2: bond symmetry (spec invariant I1) is preserved by the graph
mutators — `bind` on two open sites establishes both half-edges of the new
bond and keeps the graph symmetric, and `unbind` removes both half-edges of
the unbound edge and keeps the graph symmetric. -/
theorem bond_symmetry_invariant (g : MolGraph) (hsym : g.BondSymmetric) :
    (∀ m1 c1 m2 c2, g.bond (m1, c1) = none → g.bond (m2, c2) = none →
      ((g.bind m1 c1 m2 c2).bond (m1, c1) = some (m2, c2) ∧
       (g.bind m1 c1 m2 c2).bond (m2, c2) = some (m1, c1)) ∧
      (g.bind m1 c1 m2 c2).BondSymmetric) ∧
    (∀ m1 c1, (g.unbind m1 c1).1.BondSymmetric ∧
      ∀ n j, g.bond (m1, c1) = some (n, j) →
        (g.unbind m1 c1).1.bond (m1, c1) = none ∧
        (g.unbind m1 c1).1.bond (n, j) = none) := by
  constructor
  · intro m1 c1 m2 c2 h1 h2
    exact ⟨bind_establishes_halfedges g m1 c1 m2 c2,
           bind_preserves_symmetry g m1 c1 m2 c2 hsym h1 h2⟩
  · intro m1 c1
    exact ⟨unbind_preserves_symmetry g m1 c1 hsym,
           fun n j h => unbind_removes_halfedges g m1 c1 n j h⟩

/-- Witness for C2 at a concrete input: in the empty (trivially symmetric)
graph, binding component 0 of molecule 0 to component 0 of molecule 1 sets both
half-edges. -/
theorem bond_symmetry_invariant_witness :
    (emptyMolGraph.bind 0 0 1 0).bond (0, 0) = some (1, 0) ∧
    (emptyMolGraph.bind 0 0 1 0).bond (1, 0) = some (0, 0) :=
  ((bond_symmetry_invariant emptyMolGraph
      (fun m i n j h => by exact Option.noConfusion h)).1
    0 0 1 0 rfl rfl).1

/-! ## Scheduler loop: stepTo and equilibrate (NFcore.hh:383-393, 559-563)

`System::stepTo(stoppingTime)` (declared NFcore.hh:386) and
`System::equilibrate` (declared NFcore.hh:392-393) have no bodies in src/;
they are modelled from the spec (§4.8 loop and §6 simulation API) and from the
header's own contract comments: stepTo "will not output anything to file ...
and returns the current time of the simulation, which will always be less than
the stopping time" (NFcore.hh:383-385); equilibrate "runs the simulation
without output for the given time.  After, the clock is reset" (NFcore.hh:390).

The scheduler state carries `current_time` and `a_tot` (NFcore.hh:559-560); the
stream of sampled exponential inter-event times τ is abstracted as an input
list, whose finiteness also models the cooperative CPU budget (running out of
the stream is an early return).  The effect of firing the selected reaction on
the rest of the system is abstracted as a parameter `fire` that may change
`a_tot` and the world but neither the clock nor the recorded output.
-/

/-- The scheduler-visible state of a System: the clock `current_time`
(NFcore.hh:560), the total propensity `a_tot` (NFcore.hh:559), the samples
written to the output stream so far, and an abstract rest-of-system state. -/
structure Sched where
  current_time : ℚ
  a_tot : ℚ
  output : List ℚ
  world : Nat
deriving DecidableEq

/-- Modelled from the spec: the event loop of `System::stepTo(stoppingTime)`
(declaration only, NFcore.hh:386; body missing from src/), following the
spec §4.8 loop.  Each iteration: stop if the propensity total is non-positive
(absorbing state); otherwise draw the next inter-event time τ and commit the
event only if it stays strictly below the stopping time, firing the selected
reaction (`fire`) and advancing the clock; events at or beyond the stopping
time are not committed.  Produces no output.  Returns the state together with
the unconsumed τ stream, so a caller can resume. -/
def stepTo (fire : Sched → Sched) (stop : ℚ) :
    Sched → List ℚ → Sched × List ℚ
  | s, [] => (s, [])
  | s, τ :: rest =>
    if s.a_tot ≤ 0 then (s, τ :: rest)
    else if s.current_time + τ < stop then
      stepTo fire stop (fire { s with current_time := s.current_time + τ }) rest
    else (s, τ :: rest)

/-- Modelled from the spec: `System::equilibrate(duration)` (declaration only,
NFcore.hh:392; body missing from src/): "runs the simulation without output for
the given time.  After, the clock is reset ... so it is as if no time has
elapsed"; spec §6: "resets current_time to 0 afterward". -/
def equilibrate (fire : Sched → Sched) (s : Sched) (duration : ℚ)
    (taus : List ℚ) : Sched :=
  { (stepTo fire (s.current_time + duration) s taus).1 with current_time := 0 }

/-- Modelled from the spec: `System::equilibrate(duration, statusReports)`
(declaration only, NFcore.hh:393; body missing from src/): identical to
`equilibrate(duration)` except for console status reports, which produce no
sample output. -/
def equilibrateStatus (fire : Sched → Sched) (s : Sched) (duration : ℚ)
    (statusReports : Nat) (taus : List ℚ) : Sched :=
  equilibrate fire s duration taus

/-- Auxiliary: `stepTo` never writes to the output stream (given that firing a
reaction does not either). -/
lemma stepTo_output (fire : Sched → Sched) (stop : ℚ)
    (hfo : ∀ u, (fire u).output = u.output) :
    ∀ (taus : List ℚ) (s : Sched),
      (stepTo fire stop s taus).1.output = s.output := by
  intro taus
  induction taus with
  | nil => intro s; rfl
  | cons τ rest ih =>
    intro s
    unfold stepTo
    by_cases ha : s.a_tot ≤ 0
    · rw [if_pos ha]
    · rw [if_neg ha]
      by_cases ht : s.current_time + τ < stop
      · rw [if_pos ht]
        rw [ih (fire { s with current_time := s.current_time + τ })]
        exact hfo { s with current_time := s.current_time + τ }
      · rw [if_neg ht]

/-- Auxiliary: `stepTo` keeps the clock strictly below the stopping time when
it starts there (given that firing a reaction does not move the clock). -/
lemma stepTo_time_lt (fire : Sched → Sched) (stop : ℚ)
    (hft : ∀ u, (fire u).current_time = u.current_time) :
    ∀ (taus : List ℚ) (s : Sched), s.current_time < stop →
      (stepTo fire stop s taus).1.current_time < stop := by
  intro taus
  induction taus with
  | nil => intro s hs; exact hs
  | cons τ rest ih =>
    intro s hs
    unfold stepTo
    by_cases ha : s.a_tot ≤ 0
    · rw [if_pos ha]; exact hs
    · rw [if_neg ha]
      by_cases ht : s.current_time + τ < stop
      · rw [if_pos ht]
        apply ih
        rw [hft { s with current_time := s.current_time + τ }]
        exact ht
      · rw [if_neg ht]; exact hs

/-- Auxiliary: `stepTo` never moves the clock backwards when the τ stream is
positive (given that firing a reaction does not move the clock). -/
lemma stepTo_time_mono (fire : Sched → Sched) (stop : ℚ)
    (hft : ∀ u, (fire u).current_time = u.current_time) :
    ∀ (taus : List ℚ) (s : Sched), (∀ τ ∈ taus, 0 < τ) →
      s.current_time ≤ (stepTo fire stop s taus).1.current_time := by
  intro taus
  induction taus with
  | nil => intro s _; exact le_refl _
  | cons τ rest ih =>
    intro s hpos
    unfold stepTo
    by_cases ha : s.a_tot ≤ 0
    · rw [if_pos ha]
    · rw [if_neg ha]
      by_cases ht : s.current_time + τ < stop
      · rw [if_pos ht]
        have hτ : 0 < τ := hpos τ (List.mem_cons_self τ rest)
        have h1 : s.current_time
            ≤ (fire { s with current_time := s.current_time + τ }).current_time := by
          rw [hft { s with current_time := s.current_time + τ }]
          simp only
          linarith
        calc s.current_time
            ≤ (fire { s with current_time := s.current_time + τ }).current_time :=
              h1
          _ ≤ _ := ih (fire { s with current_time := s.current_time + τ })
              (fun x hx => hpos x (List.mem_cons_of_mem τ hx))
      · rw [if_neg ht]


/-- Auxiliary: the one-step unfolding of the `stepTo` loop on a non-empty
τ stream. -/
lemma stepTo_cons (fire : Sched → Sched) (stop : ℚ) (s : Sched) (τ : ℚ)
    (rest : List ℚ) :
    stepTo fire stop s (τ :: rest)
      = if s.a_tot ≤ 0 then (s, τ :: rest)
        else if s.current_time + τ < stop then
          stepTo fire stop (fire { s with current_time := s.current_time + τ })
            rest
        else (s, τ :: rest) := by
  simp only [stepTo]

/-- Auxiliary: resumability of `stepTo` — running on a stream split anywhere is
the same as running on the first part and resuming on its unconsumed remainder
followed by the second part.  The loop's stopping conditions depend only on the
deterministic state, so a resumed call re-stops where the first one did. -/
lemma stepTo_append (fire : Sched → Sched) (stop : ℚ) :
    ∀ (t1 t2 : List ℚ) (s : Sched),
      stepTo fire stop s (t1 ++ t2)
        = stepTo fire stop (stepTo fire stop s t1).1
            ((stepTo fire stop s t1).2 ++ t2) := by
  intro t1
  induction t1 with
  | nil =>
    intro t2 s
    rfl
  | cons τ rest ih =>
    intro t2 s
    by_cases ha : s.a_tot ≤ 0
    · rw [List.cons_append, stepTo_cons fire stop s τ (rest ++ t2), if_pos ha,
        stepTo_cons fire stop s τ rest, if_pos ha]
      simp only [List.cons_append]
      rw [stepTo_cons fire stop s τ (rest ++ t2), if_pos ha]
    · by_cases ht : s.current_time + τ < stop
      · rw [List.cons_append, stepTo_cons fire stop s τ (rest ++ t2),
          if_neg ha, if_pos ht, stepTo_cons fire stop s τ rest,
          if_neg ha, if_pos ht]
        exact ih t2 (fire { s with current_time := s.current_time + τ })
      · rw [List.cons_append, stepTo_cons fire stop s τ (rest ++ t2),
          if_neg ha, if_neg ht, stepTo_cons fire stop s τ rest,
          if_neg ha, if_neg ht]
        simp only [List.cons_append]
        rw [stepTo_cons fire stop s τ (rest ++ t2), if_neg ha, if_neg ht]

/-- Claim C5: `stepTo(stoppingTime)` advances the simulation without producing
any output; the clock it returns never reaches the stopping time (it stays
strictly below it) and never moves backwards; and the loop is resumable — a
run may stop early when its τ budget is exhausted, and re-running from the
returned state on the unconsumed stream continues exactly the interrupted run. -/
theorem stepTo_spec (fire : Sched → Sched) (stop : ℚ) (s : Sched)
    (taus : List ℚ)
    (hft : ∀ u, (fire u).current_time = u.current_time)
    (hfo : ∀ u, (fire u).output = u.output)
    (hstart : s.current_time < stop)
    (hpos : ∀ τ ∈ taus, 0 < τ) :
    (stepTo fire stop s taus).1.current_time < stop ∧
    s.current_time ≤ (stepTo fire stop s taus).1.current_time ∧
    (stepTo fire stop s taus).1.output = s.output ∧
    ∀ t1 t2, taus = t1 ++ t2 →
      stepTo fire stop s taus
        = stepTo fire stop (stepTo fire stop s t1).1
            ((stepTo fire stop s t1).2 ++ t2) := by
  refine ⟨stepTo_time_lt fire stop hft taus s hstart,
          stepTo_time_mono fire stop hft taus s hpos,
          stepTo_output fire stop hfo taus s,
          ?_⟩
  intro t1 t2 hsplit
  rw [hsplit]
  exact stepTo_append fire stop t1 t2 s

/-- A concrete scheduler state: clock 0, total propensity 1, empty output. -/
def schedStart : Sched := ⟨0, 1, [], 0⟩

/-- Witness for C5 at concrete inputs: from clock 0 with propensity total 1,
running to stopping time 10 on the τ stream [2, 3, 7] (which fires twice and
rejects the third event at time 12) ends strictly below 10, does not move the
clock backwards, and writes no output. -/
theorem stepTo_spec_witness :
    (stepTo id 10 schedStart [2, 3, 7]).1.current_time < 10 ∧
    schedStart.current_time ≤ (stepTo id 10 schedStart [2, 3, 7]).1.current_time ∧
    (stepTo id 10 schedStart [2, 3, 7]).1.output = schedStart.output ∧
    ∀ t1 t2, ([2, 3, 7] : List ℚ) = t1 ++ t2 →
      stepTo id 10 schedStart [2, 3, 7]
        = stepTo id 10 (stepTo id 10 schedStart t1).1
            ((stepTo id 10 schedStart t1).2 ++ t2) :=
  stepTo_spec id 10 schedStart [2, 3, 7] (fun u => rfl) (fun u => rfl)
    (by norm_num [schedStart])
    (by intro τ hτ; fin_cases hτ <;> norm_num)

/-- Claim C4: after `equilibrate(duration)` — and likewise
`equilibrate(duration, statusReports)` — the clock reads 0 regardless of how
far the simulation advanced during equilibration, and no output is produced
during equilibration. -/
theorem equilibrate_resets_clock (fire : Sched → Sched) (s : Sched)
    (duration : ℚ) (statusReports : Nat) (taus : List ℚ)
    (hfo : ∀ u, (fire u).output = u.output) :
    (equilibrate fire s duration taus).current_time = 0 ∧
    (equilibrate fire s duration taus).output = s.output ∧
    (equilibrateStatus fire s duration statusReports taus).current_time = 0 ∧
    (equilibrateStatus fire s duration statusReports taus).output = s.output := by
  refine ⟨rfl, ?_, rfl, ?_⟩ <;>
    simpa [equilibrate, equilibrateStatus] using
      stepTo_output fire (s.current_time + duration) hfo taus s

/-- Witness for C4 at concrete inputs: equilibrating the concrete start state
for 50 time units over the τ stream [2, 3, 7] leaves the clock at 0 and the
output stream empty. -/
theorem equilibrate_resets_clock_witness :
    (equilibrate id schedStart 50 [2, 3, 7]).current_time = 0 ∧
    (equilibrate id schedStart 50 [2, 3, 7]).output = schedStart.output ∧
    (equilibrateStatus id schedStart 50 0 [2, 3, 7]).current_time = 0 ∧
    (equilibrateStatus id schedStart 50 0 [2, 3, 7]).output
      = schedStart.output :=
  equilibrate_resets_clock id schedStart 50 0 [2, 3, 7] (fun u => rfl)

/-! ## Null events: apply-time rejection of a selected firing (NFcore.hh:419-422, 1217-1220)

`ReactionClass::fire` (declared NFcore.hh:1217-1220) has no body in src/; the
apply-time validity check and the null-event policy are modelled from the spec
(§7: "treated as a *null event*: the firing is counted toward
NULL_EVENT_COUNTER, no mutation occurs, time still advances"; "Rejections must
not corrupt reactant lists — the transformation must either succeed atomically
or be observed to be invalid *before* any mutation") and from the header's
comment on the counter ("keeps track of null events (ie binding events that
have been rejected because molecules are on the same complex)",
NFcore.hh:419-421).
-/

/-- The apply-time rejection reasons of spec §7. -/
inductive RejectReason where
  | SiteOccupied : RejectReason
  | SiteUnbound : RejectReason
  | PopulationUnderflow : RejectReason
  | ComplexMergeForbidden : RejectReason
deriving DecidableEq

/-- The elementary transformations whose application can be rejected at apply
time (spec §4.1 and §7): a bind (optionally under a rule clause forbidding
intra-complex bonds), an unbind, and a population decrement. -/
inductive Transform where
  | bindT : Nat → Nat → Nat → Nat → Bool → Transform
  | unbindT : Nat → Nat → Transform
  | decrementT : Nat → Transform
deriving DecidableEq

/-- The state a selected firing acts on: the molecule bond graph, the lumped
population counts, the complex membership map, the per-rule reactant lists,
the observable counts, `System::NULL_EVENT_COUNTER` (NFcore.hh:422), and the
simulation clock. -/
structure SimState where
  graph : MolGraph
  population : Nat → Int
  complexIdOf : Nat → Nat
  reactantLists : Nat → List Nat
  observables : Nat → Int
  nullEventCounter : Int
  current_time : ℚ

/-- Modelled from the spec: the apply-time validity check of a selected
firing's transformation, performed before any mutation (spec §7).  A bind on
an occupied site is `SiteOccupied`; a bind of two molecules already in the same
complex under a forbidding rule clause is `ComplexMergeForbidden`; an unbind on
an open site is `SiteUnbound`; a decrement of a non-positive population is
`PopulationUnderflow`. -/
def checkTransform (s : SimState) : Transform → Option RejectReason
  | Transform.bindT m1 c1 m2 c2 forbidSameComplex =>
    if s.graph.bond (m1, c1) ≠ none ∨ s.graph.bond (m2, c2) ≠ none then
      some RejectReason.SiteOccupied
    else if forbidSameComplex ∧ s.complexIdOf m1 = s.complexIdOf m2 then
      some RejectReason.ComplexMergeForbidden
    else
      none
  | Transform.unbindT m c =>
    if s.graph.bond (m, c) = none then some RejectReason.SiteUnbound else none
  | Transform.decrementT m =>
    if s.population m ≤ 0 then some RejectReason.PopulationUnderflow else none

/-- Modelled from the spec: the mutation a valid transformation performs
(spec §4.1).  A bind sets both half-edges and merges the two complexes (the
bound molecule's complex is relabelled onto the other's); an unbind removes
both half-edges (the possible complex split and the post-fire membership and
observable repair of spec §4.8 are downstream of this claim and not modelled);
a decrement lowers the population count. -/
def applyTransform (s : SimState) : Transform → SimState
  | Transform.bindT m1 c1 m2 c2 _ =>
    { s with
        graph := s.graph.bind m1 c1 m2 c2,
        complexIdOf := fun m =>
          if s.complexIdOf m = s.complexIdOf m2 then s.complexIdOf m1
          else s.complexIdOf m }
  | Transform.unbindT m c =>
    { s with graph := (s.graph.unbind m c).1 }
  | Transform.decrementT m =>
    { s with population := Function.update s.population m (s.population m - 1) }

/-- Modelled from the spec: applying a selected firing (`ReactionClass::fire`,
declared NFcore.hh:1217; body missing from src/).  The transformation is
checked for validity before any mutation; a rejected firing is a null event —
`System::NULL_EVENT_COUNTER` is incremented and the clock still advances by the
drawn inter-event time τ, but nothing else changes; a valid firing mutates the
state and advances the clock. -/
def fireSelected (s : SimState) (t : Transform) (tau : ℚ) : SimState :=
  match checkTransform s t with
  | some _ =>
    { s with
        nullEventCounter := s.nullEventCounter + 1,
        current_time := s.current_time + tau }
  | none =>
    { applyTransform s t with current_time := s.current_time + tau }

/-- Claim C3: a selected firing rejected at apply time (SiteOccupied,
SiteUnbound, PopulationUnderflow, or a forbidden intra-complex bind) is a null
event: `NULL_EVENT_COUNTER` is incremented, no mutation of the molecule graph,
populations, complex map, reactant lists, or observables occurs (the state is
unchanged, atomically), and the simulation time still advances by τ. -/
theorem null_event_is_atomic (s : SimState) (t : Transform) (tau : ℚ)
    (r : RejectReason) (h : checkTransform s t = some r) :
    (fireSelected s t tau).graph = s.graph ∧
    (fireSelected s t tau).population = s.population ∧
    (fireSelected s t tau).complexIdOf = s.complexIdOf ∧
    (fireSelected s t tau).reactantLists = s.reactantLists ∧
    (fireSelected s t tau).observables = s.observables ∧
    (fireSelected s t tau).nullEventCounter = s.nullEventCounter + 1 ∧
    (fireSelected s t tau).current_time = s.current_time + tau := by
  unfold fireSelected
  rw [h]
  exact ⟨rfl, rfl, rfl, rfl, rfl, rfl, rfl⟩

/-- A concrete state whose molecule 0 is bonded to molecule 1 at their
components 0, with everything else trivial. -/
def simStateBonded : SimState :=
  { graph := emptyMolGraph.bind 0 0 1 0
    population := fun _ => 0
    complexIdOf := fun _ => 0
    reactantLists := fun _ => []
    observables := fun _ => 0
    nullEventCounter := 0
    current_time := 0 }

/-- Witness for C3 at concrete inputs: firing a bind onto the already-bonded
site (0,0) of `simStateBonded` is rejected as `SiteOccupied` and is a null
event — nothing changes except the counter and the clock. -/
theorem null_event_is_atomic_witness :
    (fireSelected simStateBonded (Transform.bindT 0 0 2 0 false) 1).graph
      = simStateBonded.graph ∧
    (fireSelected simStateBonded (Transform.bindT 0 0 2 0 false) 1).population
      = simStateBonded.population ∧
    (fireSelected simStateBonded (Transform.bindT 0 0 2 0 false) 1).complexIdOf
      = simStateBonded.complexIdOf ∧
    (fireSelected simStateBonded (Transform.bindT 0 0 2 0 false) 1).reactantLists
      = simStateBonded.reactantLists ∧
    (fireSelected simStateBonded (Transform.bindT 0 0 2 0 false) 1).observables
      = simStateBonded.observables ∧
    (fireSelected simStateBonded (Transform.bindT 0 0 2 0 false) 1).nullEventCounter
      = simStateBonded.nullEventCounter + 1 ∧
    (fireSelected simStateBonded (Transform.bindT 0 0 2 0 false) 1).current_time
      = simStateBonded.current_time + 1 :=
  null_event_is_atomic simStateBonded (Transform.bindT 0 0 2 0 false) 1
    RejectReason.SiteOccupied (by
      show checkTransform simStateBonded (Transform.bindT 0 0 2 0 false)
        = some RejectReason.SiteOccupied
      have hb : simStateBonded.graph.bond (0, 0) = some (1, 0) :=
        (bind_establishes_halfedges emptyMolGraph 0 0 1 0).1
      simp only [checkTransform]
      rw [if_pos]
      left
      rw [hb]
      intro hnone
      exact Option.noConfusion hnone)


end NFsim
